import Mathlib

/-!
# Verification of the miniprobe agent/collector pair

Shallow embedding of the core data structures and operations of the
miniprobe repository (a Rust telemetry agent/collector), together with
proofs and refutations of the specification claims about them.

Components embedded here:

* `miniprobe-server/src/lock.rs` — `SharedOwnable` / `OwnershipGuard`
  (exclusive-ownership primitive), as a state machine over sequences of
  completed operations.
* `miniprobe-server/src/route/metrics/ingress.rs` — `handle_socket`,
  `IngressController`, `IngressWsError` and its close frames.
* `miniprobe-server/src/route/sessions.rs` — `SessionManager.add_session`
  and its regenerate-on-collision loop.
* `miniprobe-server/src/main.rs` — `index_client_token` and the
  16-byte client-token length check of `create_session` (with a full
  SHA-256 embedding so the function is executable end to end).
* `miniprobe-client/src/main.rs` — `ReconnectTimer` over `Duration`
  modelled as nanosecond counts with the checked (panicking)
  multiplication of `Duration * u32`, and the top level `main`.
* `miniprobe-client/src/http_util.rs` — `connect_happy_eyeballs` candidate
  ordering and `parse_http_response` over an embedding of the `httparse`
  response parser.
* `miniprobe-proto/src/msg.rs` — `SessionToken` `Display` / `FromStr` /
  `random`, with UTF-8 validity and lossy decoding over byte lists.

Rust `u8` byte sequences are modelled as `List Nat` with every element
below 256 where it matters; machine-word arithmetic is `Nat` with explicit
reductions modulo `2 ^ 32` (`w32`).  Fallible operations return `Option`
or `Except`; a `none` result models a Rust panic where the source can
panic (slice indexing, checked `Duration` arithmetic).
-/

/-! ## SharedOwnable (miniprobe-server/src/lock.rs)

The ownership flag of `SharedOwnable` is an `AtomicBool` driven by
`compare_exchange(false, true)` in `try_own` and `store(false)` in
`Drop for OwnershipGuard`.  Every one of those accesses is a single atomic
step, so a trace of the primitive is a sequence of completed operations,
each acting atomically on the state.  `outstanding` is the number of
`OwnershipGuard` values that have been handed out and not yet dropped.
-/

structure LockState where
  owned : Bool
  outstanding : Nat
deriving DecidableEq, Repr

/-- `SharedOwnable::try_own`: `compare_exchange(false, true)`; on success a
new `OwnershipGuard` exists, on failure the state is untouched and `None`
is returned.  The `Bool` is whether a guard was returned. -/
def tryOwn (s : LockState) : Bool × LockState :=
  if s.owned then (false, s)
  else (true, { owned := true, outstanding := s.outstanding + 1 })

/-- `Drop for OwnershipGuard`: `owned.store(false)` (and `notify_one`,
which only wakes waiters and does not change the flag); one guard ceases
to exist. -/
def dropGuard (s : LockState) : LockState :=
  { owned := false, outstanding := s.outstanding - 1 }

/-- Completed operations on a `SharedOwnable`: a `try_own` call, the
final successful `try_own` inside a blocking `own` (the `notified` waits
in between do not touch the state), and the drop of an existing guard. -/
inductive LockOp where
  | tryAcq
  | blockAcq
  | release
deriving DecidableEq, Repr

/-- One atomic step of the primitive.  A blocking `own` only completes
when the flag is free (otherwise it keeps waiting and the state is
unchanged); a `release` only does anything when a guard actually exists. -/
def lockStep (s : LockState) : LockOp → LockState
  | .tryAcq => (tryOwn s).2
  | .blockAcq => if s.owned then s else (tryOwn s).2
  | .release => if s.outstanding = 0 then s else dropGuard s

/-- Run a sequence of completed operations from the initial state of
`SharedOwnable::new` (`owned = false`, no guards). -/
def lockRun (ops : List LockOp) : LockState :=
  ops.foldl lockStep { owned := false, outstanding := 0 }

/-- The inductive invariant of the primitive: never more than one guard,
and the flag is set exactly while a guard exists. -/
def LockInv (s : LockState) : Prop :=
  s.outstanding ≤ 1 ∧ (s.owned = true ↔ s.outstanding = 1)

theorem lockStep_inv {s : LockState} (h : LockInv s) (op : LockOp) :
    LockInv (lockStep s op) := by
  obtain ⟨ow, n⟩ := s
  obtain ⟨h1, h2⟩ := h
  simp only [LockInv] at h2 ⊢
  cases op <;> cases ow <;>
    simp_all [lockStep, tryOwn, dropGuard] <;> omega

theorem lockRun_inv (ops : List LockOp) : LockInv (lockRun ops) := by
  have key : ∀ (l : List LockOp) (s : LockState), LockInv s →
      LockInv (l.foldl lockStep s) := by
    intro l
    induction l with
    | nil => intro s hs; simpa using hs
    | cons op rest ih =>
      intro s hs
      exact ih _ (lockStep_inv hs op)
  exact key ops _ ⟨by simp, by simp⟩

/-- **C1.**  For every `SharedOwnable` value and every sequence of
`try_own`, `own`, and guard-drop operations, at most one `OwnershipGuard`
is outstanding at any instant; a `try_own` call made while a guard is
outstanding returns `None` without changing the state; and dropping the
outstanding guard allows exactly one subsequent acquire to succeed (the
first `try_own` after the drop succeeds, a second one fails). -/
theorem claim_C1 (ops : List LockOp) :
    (lockRun ops).outstanding ≤ 1
    ∧ ((lockRun ops).owned = true →
        tryOwn (lockRun ops) = (false, lockRun ops))
    ∧ ((lockRun ops).outstanding = 1 →
        (tryOwn (lockStep (lockRun ops) .release)).1 = true
        ∧ (tryOwn (tryOwn (lockStep (lockRun ops) .release)).2).1 = false) := by
  obtain ⟨h1, h2⟩ := lockRun_inv ops
  refine ⟨h1, ?_, ?_⟩
  · intro how
    simp [tryOwn, how]
  · intro hone
    constructor
    · simp [lockStep, hone, dropGuard, tryOwn]
    · simp [lockStep, hone, dropGuard, tryOwn]

/-- Witness for `claim_C1` at the one-element trace `[try_own]`: the
state after it holds one guard, a further `try_own` fails without change,
and after a drop exactly one acquire succeeds. -/
theorem claim_C1_witness :
    (lockRun [LockOp.tryAcq]).outstanding ≤ 1
    ∧ (tryOwn (lockRun [LockOp.tryAcq]) = (false, lockRun [LockOp.tryAcq]))
    ∧ ((tryOwn (lockStep (lockRun [LockOp.tryAcq]) .release)).1 = true
        ∧ (tryOwn (tryOwn (lockStep (lockRun [LockOp.tryAcq]) .release)).2).1
            = false) :=
  ⟨(claim_C1 [LockOp.tryAcq]).1,
   (claim_C1 [LockOp.tryAcq]).2.1 (by decide),
   (claim_C1 [LockOp.tryAcq]).2.2 (by decide)⟩

/-! ## Metrics websocket ingress
(miniprobe-server/src/route/metrics/ingress.rs)

`handle_socket` receives the `SessionLock` extracted from the bearer
token, calls `try_own` on the session, and either runs the
`IngressController` loop (releasing the ownership guard when its scope
ends) or sends a single close frame and never constructs the controller.

The decoding of a binary frame (`postcard::from_bytes`) and the database
transaction (`write_metrics_to_db`, whose success depends on the external
SQLite pool) are the two external collaborators of the loop; they are
passed in as oracle functions, and all theorems below hold for every
choice of them.
-/

/-- `miniprobe_proto::CpuMetrics`.  `usage` is an `f32`; it is carried
around untouched by the server, so it is modelled by its 32-bit pattern. -/
structure CpuMetricsM where
  usage : Nat
deriving DecidableEq, Repr

/-- `miniprobe_proto::MemoryMetrics` (`u64` fields). -/
structure MemoryMetricsM where
  total : Nat
  used : Nat
  swap_total : Nat
  swap_used : Nat
deriving DecidableEq, Repr

/-- `miniprobe_proto::NetworkMetrics`. -/
structure NetworkMetricsM where
  ifname : String
  rx_bytes : Option Nat
  tx_bytes : Option Nat
deriving DecidableEq, Repr

/-- `miniprobe_proto::DynamicMetrics`. -/
structure DynamicMetricsM where
  sample_time : Nat
  cpu : List CpuMetricsM
  memory : MemoryMetricsM
  network : NetworkMetricsM
deriving DecidableEq, Repr

/-- `axum::extract::ws::CloseFrame` (code plus reason string). -/
structure CloseFrameM where
  code : Nat
  reason : String
deriving DecidableEq, Repr

/-- `axum::extract::ws::close_code::NORMAL`. -/
def closeCodeNormal : Nat := 1000
/-- `axum::extract::ws::close_code::AWAY`. -/
def closeCodeAway : Nat := 1001
/-- `axum::extract::ws::close_code::UNSUPPORTED`. -/
def closeCodeUnsupported : Nat := 1003
/-- `axum::extract::ws::close_code::ERROR`. -/
def closeCodeError : Nat := 1011

/-- `IngressWsError` from ingress.rs. -/
inductive IngressWsError where
  | sessionMutexPoisoned
  | shutdown
  | unexpectedMessage
  | internal (reason : String)
deriving DecidableEq, Repr

/-- `impl IntoCloseFrame for IngressWsError` (ingress.rs lines 232-253). -/
def IngressWsError.intoCloseFrame : IngressWsError → Option CloseFrameM
  | .sessionMutexPoisoned =>
      some { code := closeCodeError, reason := "session mutex poisoned" }
  | .shutdown =>
      some { code := closeCodeAway, reason := "server shutting down" }
  | .unexpectedMessage =>
      some { code := closeCodeUnsupported,
             reason := "unexpected message from client" }
  | .internal reason =>
      some { code := closeCodeError, reason := "internal error: " ++ reason }

/-- `axum::extract::ws::Message`, restricted to the shapes
`process_msg` distinguishes (`Ping`/`Pong` fall under `other`). -/
inductive WsMessage where
  | close (frame : Option CloseFrameM)
  | binary (bytes : List Nat)
  | text (content : String)
  | other
deriving DecidableEq, Repr

/-- One firing of the `tokio::select!` in `IngressController::next`:
either `ws.recv()` produced `Some(Ok(msg))`, `Some(Err(e))` or `None`,
or the cancellation token fired first. -/
inductive WsEvent where
  | recvOk (msg : WsMessage)
  | recvErr (error : String)
  | recvClosed
  | cancelled
deriving DecidableEq, Repr

/-- The two external collaborators used inside the streaming loop:
`postcard::from_bytes::<DynamicMetrics>` and the SQLite transaction of
`write_metrics_to_db`.  Errors carry the `to_string()` rendering used by
the source to build `IngressWsError::Internal`. -/
structure IngressEnv where
  decode : List Nat → Except String DynamicMetricsM
  dbWrite : DynamicMetricsM → Except String Unit

/-- `IngressController::process_msg`. -/
def processMsg (env : IngressEnv) (msg : WsMessage) :
    Except IngressWsError Unit :=
  match msg with
  | .close _ => .ok ()
  | .binary bytes =>
      match env.decode bytes with
      | .error e => .error (.internal e)
      | .ok metrics =>
          match env.dbWrite metrics with
          | .error e => .error (.internal e)
          | .ok _ => .ok ()
  | .text _ => .error .unexpectedMessage
  | .other => .ok ()

/-- `IngressController::next`, for one event: returns whether the loop
continues and the close frames sent during the step (`self.close(..)`
sends `Message::Close(err.into_close_frame())`). -/
def ingressNext (env : IngressEnv) (ev : WsEvent) :
    Bool × List (Option CloseFrameM) :=
  match ev with
  | .recvOk msg =>
      match processMsg env msg with
      | .ok _ => (true, [])
      | .error e => (false, [e.intoCloseFrame])
  | .recvErr e => (false, [(IngressWsError.internal e).intoCloseFrame])
  | .recvClosed => (false, [])
  | .cancelled => (false, [IngressWsError.shutdown.intoCloseFrame])

/-- `while controller.next().await {}`: the loop consumes events until a
step returns `false` or the event stream ends. -/
def ingressLoop (env : IngressEnv) : List WsEvent → List (Option CloseFrameM)
  | [] => []
  | ev :: rest =>
      match ingressNext env ev with
      | (true, frames) => frames ++ ingressLoop env rest
      | (false, frames) => frames

/-- Result of `handle_socket`: the session lock state when it returns,
the close frames it sent, and whether the `IngressController` streaming
loop was entered. -/
structure HandleSocketResult where
  lock : LockState
  sent : List (Option CloseFrameM)
  streamed : Bool
deriving DecidableEq, Repr

/-- `handle_socket` (ingress.rs lines 9-45).  `session.try_own()` either
yields the guard — the controller loop runs, and the guard is dropped
when the scope of the `Some(session)` arm ends, on every exit path — or
yields `None`, in which case a single close frame built from
`IngressWsError::SessionMutexPoisoned` is sent and the controller is
never constructed. -/
def handleSocket (lock : LockState) (env : IngressEnv)
    (events : List WsEvent) : HandleSocketResult :=
  match tryOwn lock with
  | (true, lock1) =>
      { lock := dropGuard lock1
        sent := ingressLoop env events
        streamed := true }
  | (false, _) =>
      { lock := lock
        sent := [IngressWsError.sessionMutexPoisoned.intoCloseFrame]
        streamed := false }

/-- **C2.**  For every streaming connection whose `handle_socket`
successfully acquired ownership of a session, the ownership is released
by the time `handle_socket` returns, whatever events the streaming loop
saw (decode errors, transport errors, cancellation, peer close), so a
subsequent `try_own` on that session succeeds. -/
theorem claim_C2 (lock : LockState) (env : IngressEnv)
    (events : List WsEvent) (hAcquired : (tryOwn lock).1 = true) :
    (handleSocket lock env events).lock.owned = false
    ∧ (tryOwn (handleSocket lock env events).lock).1 = true := by
  have hfree : lock.owned = false := by
    by_contra hcon
    have : lock.owned = true := by
      cases h : lock.owned
      · exact absurd h hcon
      · rfl
    simp [tryOwn, this] at hAcquired
  simp [handleSocket, tryOwn, hfree, dropGuard]

/-- Witness for `claim_C2`: a fresh session lock, a decoder that always
fails, and a trace that ends by cancellation; ownership is released. -/
theorem claim_C2_witness :
    (handleSocket { owned := false, outstanding := 0 }
        { decode := fun _ => .error "decode failure",
          dbWrite := fun _ => .ok () }
        [WsEvent.recvOk (WsMessage.binary [0]), WsEvent.cancelled]).lock.owned
        = false
    ∧ (tryOwn (handleSocket { owned := false, outstanding := 0 }
        { decode := fun _ => .error "decode failure",
          dbWrite := fun _ => .ok () }
        [WsEvent.recvOk (WsMessage.binary [0]), WsEvent.cancelled]).lock).1
        = true :=
  claim_C2 { owned := false, outstanding := 0 }
    { decode := fun _ => .error "decode failure",
      dbWrite := fun _ => .ok () }
    [WsEvent.recvOk (WsMessage.binary [0]), WsEvent.cancelled]
    (by decide)

/-- **C3, counterexample.**  The claim says the conflict close frame
carries a machine-readable reason code distinct from the codes used for
unsupported-message, internal-error and shutdown closes.  In the source
the conflict close is built from `IngressWsError::SessionMutexPoisoned`,
whose close code is `close_code::ERROR` (1011) — exactly the code of
`IngressWsError::Internal`, so the conflict code is not distinct from the
internal-error code. -/
theorem claim_C3_counterexample :
    IngressWsError.sessionMutexPoisoned.intoCloseFrame
        = some { code := 1011, reason := "session mutex poisoned" }
    ∧ (IngressWsError.internal "boom").intoCloseFrame
        = some { code := 1011, reason := "internal error: boom" }
    ∧ ((IngressWsError.sessionMutexPoisoned.intoCloseFrame).map
          CloseFrameM.code
        = ((IngressWsError.internal "boom").intoCloseFrame).map
          CloseFrameM.code) := by
  refine ⟨rfl, rfl, rfl⟩

/-- **C3, amended.**  When a new streaming connection presents a session
token whose session is already owned by a live connection, the server
closes the channel immediately with the single close frame
`(1011, "session mutex poisoned")`, never enters the streaming loop, and
leaves the lock state untouched.  That close code is distinct from the
unsupported-message code (1003) and the shutdown code (1001), but it
coincides with the internal-error code (1011); conflict closes are
distinguishable from internal-error closes only by the reason string. -/
theorem claim_C3 (lock : LockState) (env : IngressEnv)
    (events : List WsEvent) (hOwned : lock.owned = true) :
    handleSocket lock env events
      = { lock := lock,
          sent := [some { code := closeCodeError,
                          reason := "session mutex poisoned" }],
          streamed := false }
    ∧ closeCodeError ≠ closeCodeUnsupported
    ∧ closeCodeError ≠ closeCodeAway := by
  refine ⟨?_, by decide, by decide⟩
  simp [handleSocket, tryOwn, hOwned, IngressWsError.intoCloseFrame]

/-- Witness for `claim_C3`: a session already owned by a live connection;
the conflicting connection is refused with the conflict frame and the
loop is never entered. -/
theorem claim_C3_witness :
    handleSocket { owned := true, outstanding := 1 }
        { decode := fun _ => .error "decode failure",
          dbWrite := fun _ => .ok () }
        [WsEvent.recvOk WsMessage.other]
      = { lock := { owned := true, outstanding := 1 },
          sent := [some { code := closeCodeError,
                          reason := "session mutex poisoned" }],
          streamed := false }
    ∧ closeCodeError ≠ closeCodeUnsupported
    ∧ closeCodeError ≠ closeCodeAway :=
  claim_C3 { owned := true, outstanding := 1 }
    { decode := fun _ => .error "decode failure",
      dbWrite := fun _ => .ok () }
    [WsEvent.recvOk WsMessage.other]
    rfl

/-! ## Session registry (miniprobe-server/src/route/sessions.rs)

`SessionManager` maps `SessionToken` (32 raw bytes, equality by bytes) to
ownership-locked `Session` records in a `HashMap`.  The map is modelled
as an association list with `HashMap` semantics (`contains_key`, `get`,
`insert` replacing an existing key).  `SessionToken::random()` draws
fresh tokens from a random source; a run of `add_session` is modelled
against the sequence of tokens that source produces, consumed in order by
the regenerate-on-collision loop. -/

/-- `SessionToken`: 32 raw bytes (equality and hashing by bytes). -/
abbrev TokenBytes := List Nat

/-- `Session` (sessions.rs line 124): just the database row id (`i64`). -/
structure SessionM where
  id : Int
deriving DecidableEq, Repr

/-- `HashMap::contains_key`. -/
def containsKey (m : List (TokenBytes × SessionM)) (t : TokenBytes) : Bool :=
  m.any (fun p => p.1 == t)

/-- `HashMap::get` followed by `cloned()` (`SessionManager::get_session`). -/
def getSession (m : List (TokenBytes × SessionM)) (t : TokenBytes) :
    Option SessionM :=
  (m.find? (fun p => p.1 == t)).map (fun p => p.2)

/-- `HashMap::insert`: replaces the value under an existing key,
otherwise adds the binding. -/
def insertSession (m : List (TokenBytes × SessionM)) (t : TokenBytes)
    (s : SessionM) : List (TokenBytes × SessionM) :=
  if containsKey m t then
    m.map (fun p => if p.1 == t then (t, s) else p)
  else
    m ++ [(t, s)]

/-- `SessionManager::add_session` (sessions.rs lines 104-117): draw
tokens from the random source until one is not yet a key, insert the
session under it and return it.  `randoms` is the stream of tokens the
random source produces; `none` models the (probability-zero) case that
the modelled finite stream is exhausted before a fresh token appears. -/
def addSession : List TokenBytes → List (TokenBytes × SessionM) → SessionM →
    Option (TokenBytes × List (TokenBytes × SessionM))
  | [], _, _ => none
  | t :: rest, m, s =>
      if containsKey m t then addSession rest m s
      else some (t, insertSession m t s)

/-- A whole sequence of `add_session` calls, each with its own stream of
random draws and its own session record; returns the final registry and
the tokens returned by the successful calls, in call order. -/
def runAddSessions :
    List (List TokenBytes × SessionM) → List (TokenBytes × SessionM) →
    List (TokenBytes × SessionM) × List TokenBytes
  | [], m => (m, [])
  | (randoms, s) :: calls, m =>
      match addSession randoms m s with
      | none => runAddSessions calls m
      | some (t, m2) =>
          let rec_result := runAddSessions calls m2
          (rec_result.1, t :: rec_result.2)

theorem addSession_fresh {randoms : List TokenBytes}
    {m : List (TokenBytes × SessionM)} {s : SessionM} {t : TokenBytes}
    {m2 : List (TokenBytes × SessionM)}
    (h : addSession randoms m s = some (t, m2)) :
    containsKey m t = false ∧ m2 = insertSession m t s := by
  induction randoms with
  | nil => simp [addSession] at h
  | cons r rest ih =>
    cases hc : containsKey m r with
    | true => exact ih (by simpa [addSession, hc] using h)
    | false =>
      rw [addSession, hc] at h
      simp only [Bool.false_eq_true, if_false, Option.some.injEq,
        Prod.mk.injEq] at h
      obtain ⟨h1, h2⟩ := h
      subst h1
      exact ⟨hc, h2.symm⟩

theorem getSession_insert_fresh {m : List (TokenBytes × SessionM)}
    {t : TokenBytes} {s : SessionM} (h : containsKey m t = false) :
    getSession (insertSession m t s) t = some s := by
  rw [insertSession, h]
  simp only [Bool.false_eq_true, if_false]
  induction m with
  | nil => simp [getSession]
  | cons p rest ih =>
    have hall : ∀ q ∈ p :: rest, (q.1 == t) = false := by
      intro q hq
      simp only [containsKey] at h
      exact Bool.eq_false_iff.mpr (List.any_eq_false.mp h q hq)
    have hp : (p.1 == t) = false := hall p (List.mem_cons_self p rest)
    have hrest : containsKey rest t = false := by
      simp only [containsKey, List.any_eq_false]
      intro q hq
      exact Bool.eq_false_iff.mp (hall q (List.mem_cons_of_mem p hq))
    have := ih hrest
    simpa [getSession, List.find?, hp] using this

theorem containsKey_insert_mono {m : List (TokenBytes × SessionM)}
    {u t : TokenBytes} {s : SessionM} (h : containsKey m u = true) :
    containsKey (insertSession m t s) u = true := by
  rw [insertSession]
  cases hc : containsKey m t with
  | true =>
    simp only [if_true]
    simp only [containsKey, List.any_eq_true] at h ⊢
    obtain ⟨p, hp, hpu⟩ := h
    by_cases hpt : (p.1 == t) = true
    · refine ⟨(t, s), List.mem_map.mpr ⟨p, hp, by simp [hpt]⟩, ?_⟩
      have h1 : p.1 = t := by simpa using hpt
      have h2 : p.1 = u := by simpa using hpu
      simp [← h1, h2]
    · refine ⟨p, List.mem_map.mpr ⟨p, hp, ?_⟩, hpu⟩
      simp only [hpt, Bool.false_eq_true, if_false]
  | false =>
    simp only [Bool.false_eq_true, if_false]
    simp only [containsKey, List.any_append, Bool.or_eq_true,
      List.any_eq_true] at h ⊢
    exact Or.inl h

/-- Every token returned during a run of `add_session` calls was absent
from the registry the run started from. -/
theorem runAddSessions_fresh :
    ∀ (calls : List (List TokenBytes × SessionM))
      (m : List (TokenBytes × SessionM)) (t : TokenBytes),
      t ∈ (runAddSessions calls m).2 → containsKey m t = false := by
  intro calls
  induction calls with
  | nil => intro m t ht; simp [runAddSessions] at ht
  | cons c rest ih =>
    intro m t ht
    obtain ⟨randoms, s⟩ := c
    rw [runAddSessions] at ht
    cases hadd : addSession randoms m s with
    | none =>
      rw [hadd] at ht
      exact ih m t ht
    | some pair =>
      obtain ⟨u, m2⟩ := pair
      rw [hadd] at ht
      simp only [List.mem_cons] at ht
      rcases ht with heq | hmem
      · exact heq ▸ (addSession_fresh hadd).1
      · have h2 : containsKey m2 t = false := ih m2 t hmem
        obtain ⟨hfresh, hm2⟩ := addSession_fresh hadd
        cases hcm : containsKey m t with
        | false => rfl
        | true =>
          exact absurd (hm2 ▸ containsKey_insert_mono hcm) (by simp [h2])

theorem containsKey_insert_self {m : List (TokenBytes × SessionM)}
    {t : TokenBytes} {s : SessionM} (h : containsKey m t = false) :
    containsKey (insertSession m t s) t = true := by
  rw [insertSession, h]
  simp [containsKey, List.any_append]

/-- The tokens returned by a run of `add_session` calls are pairwise
distinct. -/
theorem runAddSessions_nodup :
    ∀ (calls : List (List TokenBytes × SessionM))
      (m : List (TokenBytes × SessionM)),
      ((runAddSessions calls m).2).Nodup := by
  intro calls
  induction calls with
  | nil => intro m; simp [runAddSessions]
  | cons c rest ih =>
    intro m
    obtain ⟨randoms, s⟩ := c
    rw [runAddSessions]
    cases hadd : addSession randoms m s with
    | none => exact ih m
    | some pair =>
      obtain ⟨u, m2⟩ := pair
      refine List.nodup_cons.mpr ⟨?_, ih m2⟩
      intro hmem
      obtain ⟨hfresh, hm2⟩ := addSession_fresh hadd
      have h2 : containsKey m2 u = false := runAddSessions_fresh rest m2 u hmem
      have h3 : containsKey m2 u = true := hm2 ▸ containsKey_insert_self hfresh
      simp [h3] at h2

/-- **C6.**  For every registry state and every call to
`SessionManager::add_session` that returns, the returned token was not
present in the registry at the time of the call and afterwards maps to
the inserted session; consequently any sequence of `add_session` calls
yields pairwise distinct tokens. -/
theorem claim_C6 :
    (∀ (randoms : List TokenBytes) (m : List (TokenBytes × SessionM))
        (s : SessionM) (t : TokenBytes) (m2 : List (TokenBytes × SessionM)),
        addSession randoms m s = some (t, m2) →
        containsKey m t = false ∧ getSession m2 t = some s)
    ∧ (∀ (calls : List (List TokenBytes × SessionM))
        (m : List (TokenBytes × SessionM)),
        ((runAddSessions calls m).2).Nodup) := by
  constructor
  · intro randoms m s t m2 h
    obtain ⟨hfresh, hm2⟩ := addSession_fresh h
    exact ⟨hfresh, hm2 ▸ getSession_insert_fresh hfresh⟩
  · exact runAddSessions_nodup

/-- Witness for `claim_C6`: a concrete `add_session` call against a
one-entry registry whose random source first collides and then yields a
fresh token, plus a concrete run of three calls. -/
theorem claim_C6_witness :
    (containsKey [([1, 2], SessionM.mk 7)] [3, 4] = false
      ∧ getSession [([1, 2], SessionM.mk 7), ([3, 4], SessionM.mk 9)] [3, 4]
          = some (SessionM.mk 9))
    ∧ ((runAddSessions
          [([[1, 2], [3, 4]], SessionM.mk 9), ([[5, 6]], SessionM.mk 10)]
          [([1, 2], SessionM.mk 7)]).2).Nodup :=
  ⟨claim_C6.1 [[1, 2], [3, 4]] [([1, 2], SessionM.mk 7)] (SessionM.mk 9)
      [3, 4] [([1, 2], SessionM.mk 7), ([3, 4], SessionM.mk 9)] (by decide),
   claim_C6.2 [([[1, 2], [3, 4]], SessionM.mk 9), ([[5, 6]], SessionM.mk 10)]
      [([1, 2], SessionM.mk 7)]⟩

/-! ## Client reconnect timer (miniprobe-client/src/main.rs lines 100-129)

`ReconnectTimer` stores three `std::time::Duration` values.  A `Duration`
is modelled as its total length in nanoseconds, a `Nat` bounded by
`durationMaxNanos` (`u64::MAX` seconds plus `999_999_999` nanoseconds).
`wait` sleeps and then sets
`curr_interval = (curr_interval * 2).min(maximal_interval)`; the
multiplication is `Duration::mul`, which panics when the doubled value
exceeds `Duration::MAX`, so the embedded `wait` returns `none` exactly in
that case. -/

/-- `Duration::MAX` in nanoseconds: `u64::MAX` seconds plus
`999_999_999` nanoseconds. -/
def durationMaxNanos : Nat := 18446744073709551615 * 1000000000 + 999999999

/-- `Duration * 2` (`impl Mul<u32> for Duration`): checked, panics on
overflow. -/
def durMulTwo (d : Nat) : Option Nat :=
  if 2 * d ≤ durationMaxNanos then some (2 * d) else none

structure ReconnectTimer where
  minimal_interval : Nat
  maximal_interval : Nat
  curr_interval : Nat
deriving DecidableEq, Repr

/-- `ReconnectTimer::new` (the `debug_assert!(minimal <= maximal)` is the
hypothesis of the theorems below). -/
def ReconnectTimer.new (minimal maximal : Nat) : ReconnectTimer :=
  { minimal_interval := minimal, maximal_interval := maximal,
    curr_interval := minimal }

/-- `ReconnectTimer::wait`: sleep (no state effect), then double the
current interval, capped at the maximum.  `none` models the panic of the
checked `Duration` multiplication. -/
def ReconnectTimer.wait (t : ReconnectTimer) : Option ReconnectTimer :=
  (durMulTwo t.curr_interval).map
    (fun d => { t with curr_interval := min d t.maximal_interval })

/-- `ReconnectTimer::reset`. -/
def ReconnectTimer.reset (t : ReconnectTimer) : ReconnectTimer :=
  { t with curr_interval := t.minimal_interval }

/-- `ReconnectTimer::interval`. -/
def ReconnectTimer.interval (t : ReconnectTimer) : Nat :=
  t.curr_interval

/-- `N` consecutive `wait` calls. -/
def waitN : Nat → ReconnectTimer → Option ReconnectTimer
  | 0, t => some t
  | n + 1, t => t.wait.bind (waitN n)

/-- Any interleaving of `wait` and `reset` calls. -/
inductive TimerOp where
  | doWait
  | doReset
deriving DecidableEq, Repr

def runTimerOps : List TimerOp → ReconnectTimer → Option ReconnectTimer
  | [], t => some t
  | .doWait :: ops, t => t.wait.bind (runTimerOps ops)
  | .doReset :: ops, t => runTimerOps ops t.reset

/-- **C4, counterexample.**  The claim quantifies over every
`ReconnectTimer` constructed with `minimum <= maximum` and asserts that
after `N` waits the current interval is `min(minimum * 2^N, maximum)`.
For `minimum = maximum = Duration::MAX` the very first `wait` panics in
`curr_interval * 2` (checked `Duration` multiplication overflows) before
the `.min(maximal_interval)` cap is applied, so no such interval results. -/
theorem claim_C4_counterexample :
    durationMaxNanos ≤ durationMaxNanos
    ∧ waitN 1 (ReconnectTimer.new durationMaxNanos durationMaxNanos) = none
    ∧ waitN 1 (ReconnectTimer.new durationMaxNanos durationMaxNanos)
        ≠ some { minimal_interval := durationMaxNanos,
                 maximal_interval := durationMaxNanos,
                 curr_interval :=
                   min (durationMaxNanos * 2 ^ 1) durationMaxNanos } := by
  refine ⟨le_refl _, ?_, ?_⟩
  · have h : durMulTwo durationMaxNanos = none := by
      rw [durMulTwo, if_neg]
      rw [durationMaxNanos]
      omega
    simp [waitN, ReconnectTimer.wait, ReconnectTimer.new, h]
  · have h : durMulTwo durationMaxNanos = none := by
      rw [durMulTwo, if_neg]
      rw [durationMaxNanos]
      omega
    simp [waitN, ReconnectTimer.wait, ReconnectTimer.new, h]

theorem min_mul_pow_cap (a mx N : Nat) :
    min ((min a mx) * 2 ^ N) mx = min (a * 2 ^ N) mx := by
  rcases le_total a mx with hle | hge
  · rw [min_eq_left hle]
  · rw [min_eq_right hge]
    have hpow : 0 < 2 ^ N := Nat.pos_pow_of_pos N (by omega)
    have h1 : mx ≤ mx * 2 ^ N := Nat.le_mul_of_pos_right mx hpow
    have h2 : mx ≤ a * 2 ^ N :=
      le_trans h1 (Nat.mul_le_mul_right _ hge)
    rw [min_eq_right h1, min_eq_right h2]

theorem waitN_closed (mn mx : Nat) (hov : 2 * mx ≤ durationMaxNanos) :
    ∀ (N c : Nat), c ≤ mx →
      waitN N { minimal_interval := mn, maximal_interval := mx,
                curr_interval := c }
        = some { minimal_interval := mn, maximal_interval := mx,
                 curr_interval := min (c * 2 ^ N) mx } := by
  intro N
  induction N with
  | zero =>
    intro c hc
    simp [waitN, min_eq_left hc]
  | succ n ih =>
    intro c hc
    have hmul : durMulTwo c = some (2 * c) := by
      rw [durMulTwo, if_pos]
      omega
    have hwait : ReconnectTimer.wait
        { minimal_interval := mn, maximal_interval := mx,
          curr_interval := c }
        = some { minimal_interval := mn, maximal_interval := mx,
                 curr_interval := min (2 * c) mx } := by
      simp [ReconnectTimer.wait, hmul]
    have hstep := ih (min (2 * c) mx) (min_le_right _ _)
    rw [waitN, hwait]
    simp only [Option.some_bind]
    rw [hstep, min_mul_pow_cap]
    have harith : 2 * c * 2 ^ n = c * 2 ^ (n + 1) := by ring
    rw [harith]

theorem runTimerOps_bounds (mn mx : Nat) (h : mn ≤ mx)
    (hov : 2 * mx ≤ durationMaxNanos) :
    ∀ (ops : List TimerOp) (c : Nat), mn ≤ c → c ≤ mx →
      ∃ c2, runTimerOps ops
          { minimal_interval := mn, maximal_interval := mx,
            curr_interval := c }
        = some { minimal_interval := mn, maximal_interval := mx,
                 curr_interval := c2 }
        ∧ mn ≤ c2 ∧ c2 ≤ mx := by
  intro ops
  induction ops with
  | nil =>
    intro c hc1 hc2
    exact ⟨c, rfl, hc1, hc2⟩
  | cons op rest ih =>
    intro c hc1 hc2
    cases op with
    | doWait =>
      have hmul : durMulTwo c = some (2 * c) := by
        rw [durMulTwo, if_pos]
        omega
      have hlow : mn ≤ min (2 * c) mx := le_min (by omega) h
      obtain ⟨c2, heq, hb1, hb2⟩ :=
        ih (min (2 * c) mx) hlow (min_le_right _ _)
      refine ⟨c2, ?_, hb1, hb2⟩
      have hwait : ReconnectTimer.wait
          { minimal_interval := mn, maximal_interval := mx,
            curr_interval := c }
          = some { minimal_interval := mn, maximal_interval := mx,
                   curr_interval := min (2 * c) mx } := by
        simp [ReconnectTimer.wait, hmul]
      rw [runTimerOps, hwait]
      simp only [Option.some_bind]
      exact heq
    | doReset =>
      obtain ⟨c2, heq, hb1, hb2⟩ := ih mn (le_refl _) h
      refine ⟨c2, ?_, hb1, hb2⟩
      rw [runTimerOps]
      simpa [ReconnectTimer.reset] using heq

/-- **C4, amended.**  For every `ReconnectTimer` constructed with
`minimum <= maximum` such that the doubled maximum stays within
`Duration::MAX` (so the checked `Duration` multiplication in `wait`
never panics): after `N` consecutive `wait` calls with no `reset` the
current interval equals `min(minimum * 2^N, maximum)`; one `reset` call
then sets it back to `minimum` regardless of `N`; and after every
sequence of operations the current interval lies in
`[minimum, maximum]`. -/
theorem claim_C4 (mn mx N : Nat) (ops : List TimerOp) (h : mn ≤ mx)
    (hov : 2 * mx ≤ durationMaxNanos) :
    waitN N (ReconnectTimer.new mn mx)
      = some { minimal_interval := mn, maximal_interval := mx,
               curr_interval := min (mn * 2 ^ N) mx }
    ∧ (waitN N (ReconnectTimer.new mn mx)).map ReconnectTimer.reset
      = some (ReconnectTimer.new mn mx)
    ∧ (runTimerOps ops (ReconnectTimer.new mn mx)).isSome = true
    ∧ (runTimerOps ops (ReconnectTimer.new mn mx)).all
        (fun t => decide (mn ≤ t.curr_interval ∧ t.curr_interval ≤ mx))
      = true := by
  have hclosed := waitN_closed mn mx hov N mn h
  obtain ⟨c2, heq, hb1, hb2⟩ :=
    runTimerOps_bounds mn mx h hov ops mn (le_refl _) h
  refine ⟨?_, ?_, ?_, ?_⟩
  · simpa [ReconnectTimer.new] using hclosed
  · rw [show ReconnectTimer.new mn mx
        = { minimal_interval := mn, maximal_interval := mx,
            curr_interval := mn } from rfl, hclosed]
    simp [ReconnectTimer.reset]
  · rw [show ReconnectTimer.new mn mx
        = { minimal_interval := mn, maximal_interval := mx,
            curr_interval := mn } from rfl, heq]
    rfl
  · rw [show ReconnectTimer.new mn mx
        = { minimal_interval := mn, maximal_interval := mx,
            curr_interval := mn } from rfl, heq]
    simpa using ⟨hb1, hb2⟩

/-- Witness for `claim_C4`: minimum 1ns, maximum 5ns, three waits, then
an operation sequence with a reset in the middle. -/
theorem claim_C4_witness :
    waitN 3 (ReconnectTimer.new 1 5)
      = some { minimal_interval := 1, maximal_interval := 5,
               curr_interval := min (1 * 2 ^ 3) 5 }
    ∧ (waitN 3 (ReconnectTimer.new 1 5)).map ReconnectTimer.reset
      = some (ReconnectTimer.new 1 5)
    ∧ (runTimerOps [TimerOp.doWait, TimerOp.doWait, TimerOp.doReset,
          TimerOp.doWait] (ReconnectTimer.new 1 5)).isSome = true
    ∧ (runTimerOps [TimerOp.doWait, TimerOp.doWait, TimerOp.doReset,
          TimerOp.doWait] (ReconnectTimer.new 1 5)).all
        (fun t => decide (1 ≤ t.curr_interval ∧ t.curr_interval ≤ 5))
      = true :=
  claim_C4 1 5 3
    [TimerOp.doWait, TimerOp.doWait, TimerOp.doReset, TimerOp.doWait]
    (by decide) (by decide)

/-! ## Client top level (miniprobe-client/src/main.rs lines 44-62)

`main` parses the configuration, performs exactly one
`auth::auth(&cfg.token, &cfg.server_addr, cfg.tls).await?` call, prints
the response and returns `Ok(())`.  The reconnect loop, the
`ReconnectTimer` usage and the streaming egress are commented out or not
referenced from `main` at all, so any error from the single `auth`
attempt is propagated by `?` and terminates the process with that error. -/

/-- The error kinds the specification distinguishes for the client
(`anyhow::Error` values produced by the auth path). -/
inductive ClientError where
  | connectivity (msg : String)
  | protocol (msg : String)
  | authorization (msg : String)
  | transport (msg : String)
deriving DecidableEq, Repr

/-- Modelled from the spec: `AuthRespMessage` is not under `src/`
(`miniprobe-proto` only ships `CreateSessionResp`); per the spec the auth
response carries a session token and a recommended sample interval. -/
structure AuthRespM where
  session_token : TokenBytes
  scrape_interval : Nat
deriving DecidableEq, Repr

/-- `main` of the client, as a function of the outcome of its single
`auth` call: `let auth_resp = auth(..).await?; println!(..); Ok(())`. -/
def clientMain (authResult : Except ClientError AuthRespM) :
    Except ClientError Unit :=
  match authResult with
  | .error e => .error e
  | .ok _ => .ok ()

/-- **C5 (divergence witness).**  The claim says the client's top-level
loop survives every error kind by backing off and retrying, terminating
only on a local shutdown signal with a success outcome.  The code has no
such loop: `main` makes one `auth` attempt and propagates any error,
terminating the process with a failure; it returns success only when the
single attempt succeeds. -/
theorem claim_C5_code (e : ClientError) (r : AuthRespM) :
    clientMain (Except.error e) = Except.error e
    ∧ clientMain (Except.ok r) = Except.ok () := by
  exact ⟨rfl, rfl⟩

/-! ## Happy-Eyeballs candidate order
(miniprobe-client/src/http_util.rs lines 138-150)

`connect_happy_eyeballs` partitions the resolved addresses by IP family
(`Iterator::partition` keeps relative order), orders the two partitions
by the preference flag, and interleaves them with
`itertools::Itertools::interleave` before spawning the staggered
connection attempts in that exact order. -/

/-- A resolved socket address: its IP family and an identifier standing
for the rest of the address. -/
structure SocketAddrM where
  is_ipv4 : Bool
  id : Nat
deriving DecidableEq, Repr

/-- `itertools::Itertools::interleave`: alternate elements of the two
iterators starting with the first; once one runs out, yield the rest of
the other. -/
def interleaveRs {α : Type} : List α → List α → List α
  | [], ys => ys
  | x :: xs, ys => x :: interleaveRs ys xs
termination_by xs ys => xs.length + ys.length
decreasing_by
  simp only [List.length_cons]
  omega

/-- The candidate order computed inside `connect_happy_eyeballs`:
partition by `is_ipv4`, pick `(v6, v4)` or `(v4, v6)` according to
`prefer_ipv6`, then interleave. -/
def happyEyeballsOrder (prefer_ipv6 : Bool) (addrs : List SocketAddrM) :
    List SocketAddrM :=
  let parts := addrs.partition (fun a => a.is_ipv4)
  let pair := if prefer_ipv6 then (parts.2, parts.1) else (parts.1, parts.2)
  interleaveRs pair.1 pair.2

/-- The spec wording: the alternating interleaving of two lists — first
list first, alternating thereafter, trailing surplus of the longer list
kept in order. -/
def specAlternate {α : Type} : List α → List α → List α
  | [], ys => ys
  | xs, [] => xs
  | x :: xs, y :: ys => x :: y :: specAlternate xs ys

/-- The spec wording of the candidate order: the preferred-family
addresses (in their resolved order) alternated with the other-family
addresses (in their resolved order), preferred family first. -/
def specCandidateOrder (prefer_ipv6 : Bool) (addrs : List SocketAddrM) :
    List SocketAddrM :=
  specAlternate
    (addrs.filter (fun a => if prefer_ipv6 then !a.is_ipv4 else a.is_ipv4))
    (addrs.filter (fun a => if prefer_ipv6 then a.is_ipv4 else !a.is_ipv4))

theorem interleaveRs_eq_specAlternate {α : Type} :
    ∀ (n : Nat) (xs ys : List α), xs.length + ys.length ≤ n →
      interleaveRs xs ys = specAlternate xs ys := by
  intro n
  induction n with
  | zero =>
    intro xs ys hlen
    have hx : xs = [] := List.length_eq_zero.mp (by omega)
    have hy : ys = [] := List.length_eq_zero.mp (by omega)
    subst hx
    subst hy
    simp [interleaveRs, specAlternate]
  | succ n ih =>
    intro xs ys hlen
    cases xs with
    | nil => simp [interleaveRs, specAlternate]
    | cons x xs =>
      cases ys with
      | nil => simp [interleaveRs, specAlternate]
      | cons y ys =>
        have hrec : interleaveRs xs ys = specAlternate xs ys := by
          apply ih
          simp only [List.length_cons] at hlen
          omega
        simp [interleaveRs, specAlternate, hrec]

/-- **C8.**  For every resolved address list and IP-family preference
flag, the candidate order attempted by `connect_happy_eyeballs` is the
alternating interleaving of the preferred-family addresses with the
other-family addresses — preferred family first, alternating thereafter,
trailing surplus of the longer list kept in order — preserving the
relative order within each family. -/
theorem claim_C8 (prefer_ipv6 : Bool) (addrs : List SocketAddrM) :
    happyEyeballsOrder prefer_ipv6 addrs
      = specCandidateOrder prefer_ipv6 addrs := by
  rw [happyEyeballsOrder, specCandidateOrder]
  simp only [List.partition_eq_filter_filter]
  cases prefer_ipv6 with
  | false =>
    simp only [if_false, Bool.false_eq_true]
    exact interleaveRs_eq_specAlternate _ _ _ (le_refl _)
  | true =>
    simp only [if_true]
    exact interleaveRs_eq_specAlternate _ _ _ (le_refl _)

/-! ## HTTP response parsing
(miniprobe-client/src/http_util.rs lines 232-261)

`parse_http_response` feeds the whole buffered byte stream to
`httparse::Response::parse` with room for 64 headers, bails out with
`"HTTP error: response is incomplete"` when the parse status is
`Partial`, and otherwise builds an `http::Response` from the status code,
version and headers, with the bytes after the head as body.

The `httparse` response parser is embedded below at the byte level:
status line `HTTP/1.<digit> <3 digits> [reason]\r\n`, then header lines
until the empty line; running out of input anywhere in the head yields
the incomplete status, an unexpected byte yields a parse error. -/

/-- Result of one sub-parser: the parsed value and the remaining bytes,
or the two `httparse` failure modes (incomplete input / invalid bytes). -/
inductive PR (α : Type) where
  | done (value : α) (rest : List Nat)
  | needMore
  | fail (error : String)
deriving DecidableEq, Repr

/-- The bytes of `"HTTP/1."`. -/
def httpVersionLit : List Nat := [72, 84, 84, 80, 47, 49, 46]

/-- Match a literal byte sequence; running out of input while the input
is still a prefix of the literal is incomplete, a mismatching byte is an
error. -/
def expectLit : List Nat → List Nat → PR Unit
  | [], rest => .done () rest
  | _ :: _, [] => .needMore
  | l :: ls, b :: bs =>
      if b = l then expectLit ls bs else .fail "invalid HTTP version"

/-- `HTTP/1.0` or `HTTP/1.1` (the minor digit is the parsed version). -/
def parseVersion (input : List Nat) : PR Nat :=
  match expectLit httpVersionLit input with
  | .done _ rest =>
      match rest with
      | [] => .needMore
      | b :: bs =>
          if b = 48 then .done 0 bs
          else if b = 49 then .done 1 bs
          else .fail "invalid HTTP version"
  | .needMore => .needMore
  | .fail e => .fail e

def parseSpace (input : List Nat) : PR Unit :=
  match input with
  | [] => .needMore
  | 32 :: rest => .done () rest
  | _ => .fail "invalid token"

def isDigitByte (b : Nat) : Bool :=
  decide (48 ≤ b ∧ b ≤ 57)

/-- Exactly three decimal digits of the status code. -/
def parseCode (input : List Nat) : PR Nat :=
  match input with
  | [] => .needMore
  | [b1] => if isDigitByte b1 then .needMore else .fail "invalid status code"
  | [b1, b2] =>
      if isDigitByte b1 ∧ isDigitByte b2 then .needMore
      else .fail "invalid status code"
  | b1 :: b2 :: b3 :: rest =>
      if isDigitByte b1 ∧ isDigitByte b2 ∧ isDigitByte b3 then
        .done (100 * (b1 - 48) + 10 * (b2 - 48) + (b3 - 48)) rest
      else .fail "invalid status code"

/-- Split at the first CRLF: the line content and the bytes after the
CRLF; `none` while no full CRLF has arrived yet. -/
def splitCRLF : List Nat → Option (List Nat × List Nat)
  | [] => none
  | 13 :: 10 :: rest => some ([], rest)
  | b :: rest => (splitCRLF rest).map (fun p => (b :: p.1, p.2))

/-- After the status code: either a space and a reason phrase up to CRLF,
or CRLF directly. -/
def parseReason (input : List Nat) : PR (List Nat)  :=
  match input with
  | [] => .needMore
  | 32 :: rest =>
      match splitCRLF rest with
      | some (line, rest2) => .done line rest2
      | none => .needMore
  | 13 :: rest =>
      match rest with
      | [] => .needMore
      | 10 :: rest2 => .done [] rest2
      | _ => .fail "invalid token"
  | _ => .fail "invalid token"

/-- Split a header line at the first colon. -/
def splitColon : List Nat → Option (List Nat × List Nat)
  | [] => none
  | 58 :: rest => some ([], rest)
  | b :: rest => (splitColon rest).map (fun p => (b :: p.1, p.2))

/-- Drop leading spaces/tabs of a header value. -/
def dropOWS : List Nat → List Nat
  | 32 :: rest => dropOWS rest
  | 9 :: rest => dropOWS rest
  | other => other

/-- Header block: lines `name: value\r\n` until the empty `\r\n` line,
at most `budget` headers (the source passes a 64-entry array, and
exceeding it is the `TooManyHeaders` error). -/
def parseHeaders : Nat → List Nat → PR (List (List Nat × List Nat))
  | _, [] => .needMore
  | _, 13 :: rest =>
      match rest with
      | [] => .needMore
      | 10 :: rest2 => .done [] rest2
      | _ => .fail "invalid header name"
  | 0, _ :: _ => .fail "too many headers"
  | budget + 1, b :: bs =>
      match splitCRLF (b :: bs) with
      | none => .needMore
      | some (line, rest2) =>
          match splitColon line with
          | none => .fail "invalid header name"
          | some (name, value) =>
              match parseHeaders budget rest2 with
              | .done headers rest3 =>
                  .done ((name, dropOWS value) :: headers) rest3
              | .needMore => .needMore
              | .fail e => .fail e

/-- Outcome of `httparse::Response::parse`: `Ok(Status::Complete(n))`
with the parsed head, `Ok(Status::Partial)`, or `Err(e)`. -/
inductive HttparseStatus where
  | complete (bodyStart : Nat) (code : Option Nat) (version : Option Nat)
      (headers : List (List Nat × List Nat))
  | moreNeeded
  | parseError (error : String)
deriving DecidableEq, Repr

/-- The embedded `httparse::Response::parse` over the whole input. -/
def httparseResponse (input : List Nat) : HttparseStatus :=
  match parseVersion input with
  | .needMore => .moreNeeded
  | .fail e => .parseError e
  | .done version r1 =>
      match parseSpace r1 with
      | .needMore => .moreNeeded
      | .fail e => .parseError e
      | .done _ r2 =>
          match parseCode r2 with
          | .needMore => .moreNeeded
          | .fail e => .parseError e
          | .done code r3 =>
              match parseReason r3 with
              | .needMore => .moreNeeded
              | .fail e => .parseError e
              | .done _ r4 =>
                  match parseHeaders 64 r4 with
                  | .needMore => .moreNeeded
                  | .fail e => .parseError e
                  | .done headers r5 =>
                      .complete (input.length - r5.length) (some code)
                        (some version) headers

/-- `http::Version` as used by `parse_http_response`. -/
inductive HttpVersionM where
  | http10
  | http11
  | http2
deriving DecidableEq, Repr

/-- The `match resp.version.unwrap_or(1)` arm of `parse_http_response`. -/
def versionFromNumber (v : Nat) : HttpVersionM :=
  match v with
  | 0 => .http10
  | 1 => .http11
  | 2 => .http2
  | _ => .http11

/-- The `http::Response<Bytes>` value built by `parse_http_response`. -/
structure HttpResponseM where
  status : Nat
  version : HttpVersionM
  headers : List (List Nat × List Nat)
  body : List Nat
deriving DecidableEq, Repr

/-- `parse_http_response` (http_util.rs lines 232-261). -/
def parseHttpResponse (bytes : List Nat) : Except String HttpResponseM :=
  match httparseResponse bytes with
  | .parseError e => .error e
  | .moreNeeded => .error "HTTP error: response is incomplete"
  | .complete bodyStart code version headers =>
      .ok { status := code.getD 200,
            version := versionFromNumber (version.getD 1),
            headers := headers,
            body := bytes.drop bodyStart }

/-- **C7.**  For every input byte sequence on which the response parser
reports an incomplete parse after end of stream (in particular every
truncated status line), `parse_http_response` returns the
`"HTTP error: response is incomplete"` protocol error — it neither
panics (the embedding is total and the `unwrap` of the source only runs
on a complete parse) nor returns a partial response value. -/
theorem claim_C7 (bytes : List Nat)
    (h : httparseResponse bytes = .moreNeeded) :
    parseHttpResponse bytes
      = Except.error "HTTP error: response is incomplete" := by
  rw [parseHttpResponse, h]

/-- Witness for `claim_C7`: the truncated status line `"HTTP/1.1 20"`. -/
theorem claim_C7_witness :
    parseHttpResponse [72, 84, 84, 80, 47, 49, 46, 49, 32, 50, 48]
      = Except.error "HTTP error: response is incomplete" :=
  claim_C7 [72, 84, 84, 80, 47, 49, 46, 49, 32, 50, 48] (by decide)

/-! ## Client-token fast index
(miniprobe-server/src/main.rs lines 209-217 and
miniprobe-server/src/route/sessions.rs lines 22-26)

`index_client_token` slices the first four bytes of the credential string
(`&token[..4]`, which panics when byte offset 4 is not a UTF-8 character
boundary of the string), hashes them with SHA-256 and folds the first
four digest bytes into a `u32`.  `create_session` guards calls to it only
by `token.len() != CLINET_TOKEN_LENGTH` (16 bytes).  SHA-256 is embedded
in full so the function is executable. -/

/-- Reduce to a 32-bit word. -/
def w32 (n : Nat) : Nat := n % 4294967296

/-- Rotate a 32-bit word right by `n` bits. -/
def rotr32 (x n : Nat) : Nat :=
  x / 2 ^ n + x % 2 ^ n * 2 ^ (32 - n)

/-- Shift a 32-bit word right by `n` bits. -/
def shr32 (x n : Nat) : Nat := x / 2 ^ n

/-- Bitwise complement of a 32-bit word. -/
def not32 (x : Nat) : Nat := 4294967295 - x

def sha256BigSigma0 (x : Nat) : Nat :=
  rotr32 x 2 ^^^ rotr32 x 13 ^^^ rotr32 x 22

def sha256BigSigma1 (x : Nat) : Nat :=
  rotr32 x 6 ^^^ rotr32 x 11 ^^^ rotr32 x 25

def sha256SmallSigma0 (x : Nat) : Nat :=
  rotr32 x 7 ^^^ rotr32 x 18 ^^^ shr32 x 3

def sha256SmallSigma1 (x : Nat) : Nat :=
  rotr32 x 17 ^^^ rotr32 x 19 ^^^ shr32 x 10

def sha256Ch (x y z : Nat) : Nat := (x &&& y) ^^^ (not32 x &&& z)

def sha256Maj (x y z : Nat) : Nat := (x &&& y) ^^^ (x &&& z) ^^^ (y &&& z)

/-- The 64 SHA-256 round constants (FIPS 180-4, written in decimal). -/
def sha256K : List Nat :=
  [1116352408, 1899447441, 3049323471, 3921009573,
   961987163, 1508970993, 2453635748, 2870763221,
   3624381080, 310598401, 607225278, 1426881987,
   1925078388, 2162078206, 2614888103, 3248222580,
   3835390401, 4022224774, 264347078, 604807628,
   770255983, 1249150122, 1555081692, 1996064986,
   2554220882, 2821834349, 2952996808, 3210313671,
   3336571891, 3584528711, 113926993, 338241895,
   666307205, 773529912, 1294757372, 1396182291,
   1695183700, 1986661051, 2177026350, 2456956037,
   2730485921, 2820302411, 3259730800, 3345764771,
   3516065817, 3600352804, 4094571909, 275423344,
   430227734, 506948616, 659060556, 883997877,
   958139571, 1322822218, 1537002063, 1747873779,
   1955562222, 2024104815, 2227730452, 2361852424,
   2428436474, 2756734187, 3204031479, 3329325298]

/-- The SHA-256 initial hash value (FIPS 180-4, written in decimal). -/
def sha256Init : List Nat :=
  [1779033703, 3144134277, 1013904242, 2773480762,
   1359893119, 2600822924, 528734635, 1541459225]

/-- Big-endian bytes of the 64-bit message bit length. -/
def lengthBytes64 (bitLen : Nat) : List Nat :=
  [bitLen / 2 ^ 56 % 256, bitLen / 2 ^ 48 % 256, bitLen / 2 ^ 40 % 256,
   bitLen / 2 ^ 32 % 256, bitLen / 2 ^ 24 % 256, bitLen / 2 ^ 16 % 256,
   bitLen / 2 ^ 8 % 256, bitLen % 256]

/-- SHA-256 padding: `0x80`, zeros to 56 mod 64, 64-bit big-endian
length in bits. -/
def sha256Pad (msg : List Nat) : List Nat :=
  msg ++ [128] ++ List.replicate ((119 - msg.length % 64) % 64) 0
    ++ lengthBytes64 (8 * msg.length)

/-- Big-endian 32-bit words from bytes. -/
def bytesToWords : List Nat → List Nat
  | b1 :: b2 :: b3 :: b4 :: rest =>
      (((b1 * 256 + b2) * 256 + b3) * 256 + b4) :: bytesToWords rest
  | _ => []

/-- Split the padded message into 64-byte blocks. -/
def chunk64 (bytes : List Nat) : List (List Nat) :=
  if _hne : bytes = [] then
    []
  else
    bytes.take 64 :: chunk64 (bytes.drop 64)
termination_by bytes.length
decreasing_by
  have hpos : 0 < bytes.length := List.length_pos.mpr _hne
  simp only [List.length_drop]
  omega

/-- Extend a 16-word block schedule by `k` further words. -/
def extendSchedule : List Nat → Nat → List Nat
  | ws, 0 => ws
  | ws, k + 1 =>
      let n := ws.length
      let w := w32 (sha256SmallSigma1 (ws.getD (n - 2) 0) + ws.getD (n - 7) 0
        + sha256SmallSigma0 (ws.getD (n - 15) 0) + ws.getD (n - 16) 0)
      extendSchedule (ws ++ [w]) k

/-- One SHA-256 round on the working variables `[a,b,c,d,e,f,g,h]`. -/
def sha256Round (st : List Nat) (kw : Nat × Nat) : List Nat :=
  match st with
  | [a, b, c, d, e, f, g, h] =>
      let t1 := w32 (h + sha256BigSigma1 e + sha256Ch e f g + kw.1 + kw.2)
      let t2 := w32 (sha256BigSigma0 a + sha256Maj a b c)
      [w32 (t1 + t2), a, b, c, w32 (d + t1), e, f, g]
  | other => other

/-- Compress one 64-byte block into the running hash. -/
def sha256Compress (hs : List Nat) (block : List Nat) : List Nat :=
  let ws := extendSchedule (bytesToWords block) 48
  let st := (sha256K.zip ws).foldl sha256Round hs
  List.zipWith (fun h0 s => w32 (h0 + s)) hs st

/-- Big-endian bytes of one 32-bit word. -/
def wordBytes (w : Nat) : List Nat :=
  [w / 16777216 % 256, w / 65536 % 256, w / 256 % 256, w % 256]

/-- `Sha256::digest`: the 32 digest bytes of a byte message. -/
def sha256 (msg : List Nat) : List Nat :=
  ((chunk64 (sha256Pad msg)).foldl sha256Compress sha256Init).foldr
    (fun w acc => wordBytes w ++ acc) []

/-- `str::is_char_boundary` on the UTF-8 bytes of a string: offset 0,
the total length, or any offset whose byte is not a continuation byte. -/
def isCharBoundary (s : List Nat) (i : Nat) : Bool :=
  if i = 0 then true
  else if i < s.length then decide (s.getD i 0 < 128 ∨ 192 ≤ s.getD i 0)
  else decide (i = s.length)

/-- Rust string slicing `&s[..n]`: the first `n` bytes, or a panic
(`none`) when `n` is not a character boundary. -/
def slicePrefixRs (s : List Nat) (n : Nat) : Option (List Nat) :=
  if isCharBoundary s n then some (s.take n) else none

/-- `CLINET_TOKEN_LENGTH` (miniprobe-server/src/main.rs line 30). -/
def clientTokenLength : Nat := 16

/-- The `token.len() != CLINET_TOKEN_LENGTH` guard of `create_session`
(byte length of the credential string). -/
def createSessionLengthCheck (token : List Nat) : Bool :=
  token.length == clientTokenLength

/-- `index_client_token` (main.rs lines 209-217): SHA-256 of the first
four bytes of the token, first four digest bytes folded into a `u32`.
`none` models the slicing panic when byte offset 4 is not a character
boundary. -/
def indexClientToken (token : List Nat) : Option Nat :=
  (slicePrefixRs token 4).map
    (fun p => ((sha256 p).take 4).foldl (fun acc b => w32 (acc <<< 8) ||| b) 0)

/-- Continuation byte `0x80..=0xBF`. -/
def utf8Cont (b : Nat) : Bool := decide (128 ≤ b ∧ b < 192)

/-- UTF-8 validity of a byte list (a Rust `String` always satisfies it):
ASCII, two-byte `C2..DF`, three-byte `E0/E1..EC/ED/EE..EF` with their
restricted second bytes, four-byte `F0/F1..F3/F4` with theirs. -/
def utf8Valid : List Nat → Bool
  | [] => true
  | b :: rest =>
      if b < 128 then utf8Valid rest
      else if 194 ≤ b ∧ b ≤ 223 then
        match rest with
        | c1 :: r1 => utf8Cont c1 && utf8Valid r1
        | [] => false
      else if 224 ≤ b ∧ b ≤ 239 then
        match rest with
        | c1 :: c2 :: r2 =>
            let lo := if b = 224 then 160 else 128
            let hi := if b = 237 then 160 else 192
            decide (lo ≤ c1 ∧ c1 < hi) && utf8Cont c2 && utf8Valid r2
        | _ => false
      else if 240 ≤ b ∧ b ≤ 244 then
        match rest with
        | c1 :: c2 :: c3 :: r3 =>
            let lo := if b = 240 then 144 else 128
            let hi := if b = 244 then 144 else 192
            decide (lo ≤ c1 ∧ c1 < hi) && utf8Cont c2 && utf8Cont c3
              && utf8Valid r3
        | _ => false
      else false

/-- **C9 (divergence witness).**  The claim says `index_client_token`
returns without panicking for every credential string that passes
`create_session`'s 16-byte length check.  The valid UTF-8 16-byte token
`"abc" ++ "€" ++ "cccccccccc"` passes the length check, yet byte offset
4 falls inside the three-byte encoding of `"€"`, so the `&token[..4]`
slice inside `index_client_token` panics (modelled by `none`). -/
theorem claim_C9_code :
    utf8Valid [97, 98, 99, 226, 130, 172, 99, 99, 99, 99, 99, 99, 99, 99,
      99, 99] = true
    ∧ createSessionLengthCheck [97, 98, 99, 226, 130, 172, 99, 99, 99, 99,
      99, 99, 99, 99, 99, 99] = true
    ∧ isCharBoundary [97, 98, 99, 226, 130, 172, 99, 99, 99, 99, 99, 99,
      99, 99, 99, 99] 4 = false
    ∧ indexClientToken [97, 98, 99, 226, 130, 172, 99, 99, 99, 99, 99, 99,
      99, 99, 99, 99] = none := by
  refine ⟨by decide, by decide, by decide, ?_⟩
  have hb : isCharBoundary [97, 98, 99, 226, 130, 172, 99, 99, 99, 99, 99,
      99, 99, 99, 99, 99] 4 = false := by decide
  rw [indexClientToken, slicePrefixRs, hb]
  rfl

/-! ## SessionToken string form (miniprobe-proto/src/msg.rs)

`SessionToken` wraps `[u8; 32]`.  `Display` renders
`String::from_utf8_lossy(&self.0)` (each maximal invalid subpart becomes
U+FFFD, whose UTF-8 bytes are `EF BF BD`; valid sequences pass through
unchanged); `FromStr` accepts exactly 32 bytes and copies them;
`random()` samples 32 bytes from `rand::distr::Alphanumeric`
(ASCII `A-Z`, `a-z`, `0-9`). -/

/-- The UTF-8 bytes of U+FFFD, the replacement character. -/
def utf8Rep : List Nat := [239, 191, 189]

/-- `String::from_utf8_lossy` at the byte level: valid UTF-8 sequences
are copied, each maximal prefix of a valid sequence that cannot be
completed is replaced by U+FFFD and decoding resumes at the offending
byte. -/
def utf8Lossy : List Nat → List Nat
  | [] => []
  | b :: rest =>
      if b < 128 then b :: utf8Lossy rest
      else if 194 ≤ b ∧ b ≤ 223 then
        match rest with
        | c1 :: r1 =>
            if utf8Cont c1 then b :: c1 :: utf8Lossy r1
            else utf8Rep ++ utf8Lossy (c1 :: r1)
        | [] => utf8Rep
      else if 224 ≤ b ∧ b ≤ 239 then
        match rest with
        | c1 :: r1 =>
            if (if b = 224 then 160 else 128) ≤ c1
                ∧ c1 < (if b = 237 then 160 else 192) then
              match r1 with
              | c2 :: r2 =>
                  if utf8Cont c2 then b :: c1 :: c2 :: utf8Lossy r2
                  else utf8Rep ++ utf8Lossy (c2 :: r2)
              | [] => utf8Rep
            else utf8Rep ++ utf8Lossy (c1 :: r1)
        | [] => utf8Rep
      else if 240 ≤ b ∧ b ≤ 244 then
        match rest with
        | c1 :: r1 =>
            if (if b = 240 then 144 else 128) ≤ c1
                ∧ c1 < (if b = 244 then 144 else 192) then
              match r1 with
              | c2 :: r2 =>
                  if utf8Cont c2 then
                    match r2 with
                    | c3 :: r3 =>
                        if utf8Cont c3 then
                          b :: c1 :: c2 :: c3 :: utf8Lossy r3
                        else utf8Rep ++ utf8Lossy (c3 :: r3)
                    | [] => utf8Rep
                  else utf8Rep ++ utf8Lossy (c2 :: r2)
              | [] => utf8Rep
            else utf8Rep ++ utf8Lossy (c1 :: r1)
        | [] => utf8Rep
      else utf8Rep ++ utf8Lossy rest

/-- `impl Display for SessionToken`: the UTF-8 bytes of
`String::from_utf8_lossy(&self.0)`. -/
def sessionTokenDisplay (t : List Nat) : List Nat := utf8Lossy t

/-- `impl FromStr for SessionToken` over the UTF-8 bytes of the input
string: exactly 32 bytes, copied verbatim. -/
def sessionTokenFromStr (s : List Nat) : Except String (List Nat) :=
  if s.length = 32 then .ok (s.take 32)
  else .error "SessionToken must be 32 bytes long"

/-- A byte drawn from `rand::distr::Alphanumeric`. -/
def isAlnumByte (b : Nat) : Bool :=
  decide ((48 ≤ b ∧ b ≤ 57) ∨ (65 ≤ b ∧ b ≤ 90) ∨ (97 ≤ b ∧ b ≤ 122))

theorem utf8Lossy_ascii :
    ∀ (t : List Nat), (∀ b ∈ t, b < 128) → utf8Lossy t = t := by
  intro t
  induction t with
  | nil => intro _; rfl
  | cons b rest ih =>
    intro hall
    have hb : b < 128 := hall b (List.mem_cons_self b rest)
    have hrest : ∀ x ∈ rest, x < 128 :=
      fun x hx => hall x (List.mem_cons_of_mem b hx)
    rw [utf8Lossy.eq_def]
    simp [hb, ih hrest]

/-- **C10.**  For every token `t` produced by `SessionToken::random()`
(32 bytes, each alphanumeric ASCII), rendering it with `Display` and
parsing the resulting string with `FromStr` yields `Ok(t)`: the bearer
token round-trips losslessly through its string form. -/
theorem claim_C10 (t : List Nat) (hlen : t.length = 32)
    (halnum : ∀ b ∈ t, isAlnumByte b = true) :
    sessionTokenFromStr (sessionTokenDisplay t) = Except.ok t := by
  have hascii : ∀ b ∈ t, b < 128 := by
    intro b hb
    have := halnum b hb
    simp only [isAlnumByte, decide_eq_true_eq] at this
    omega
  rw [sessionTokenDisplay, utf8Lossy_ascii t hascii, sessionTokenFromStr,
    if_pos hlen, ← hlen, List.take_length]

/-- Witness for `claim_C10`: the all-`'A'` token. -/
theorem claim_C10_witness :
    sessionTokenFromStr (sessionTokenDisplay (List.replicate 32 65))
      = Except.ok (List.replicate 32 65) :=
  claim_C10 (List.replicate 32 65) (by decide) (by decide)
